import Mathlib

/-!
Verification of the quick_workflow CLI (Go) against its design specification.

The Go sources are embedded shallowly:
* the unified data model (main.go: Project, WorkflowRun, Job, Step) becomes
  Lean structures, with time.Time instants modelled as natural numbers
  (only their ordering and equality are used by the program);
* the merge-and-sort step (workflows.go, sort.Slice with a CreatedAt.After
  comparator) is modelled by the documented contract of the standard
  library sort.Slice: the output is a permutation of the input that is
  sorted with respect to the comparator; sort.Slice gives no stability
  guarantee, so every output satisfying that contract is a possible result;
* fallible operations return Except with the exact message strings of the
  source; os.Getenv becomes an explicit environment function; remote API
  calls become an oracle record, and every operation also reports the list
  of side effects (environment reads, network calls) it performs.
-/

namespace QuickWorkflow

/-- Project record from main.go: identity of a tracked repository.
The addedAt field is a formatted RFC3339 string in the source. -/
structure Project where
  name : String
  owner : String
  repo : String
  platform : String
  remoteURL : String
  addedAt : String
  accessToken : String
deriving Repr, DecidableEq

/-- WorkflowRun record from main.go: a unified workflow execution.
Timestamps are modelled as Nat instants; CreatedAt.After corresponds to
strict greater-than on createdAt. -/
structure WorkflowRun where
  id : String
  project : String
  workflow : String
  status : String
  conclusion : String
  createdAt : Nat
  updatedAt : Nat
  url : String
  platform : String
  branch : String
  commit : String
  triggeredBy : String
deriving Repr, DecidableEq, BEq

/-- Step record from main.go: a step within a job. -/
structure Step where
  name : String
  status : String
  conclusion : String
  startedAt : Option Nat
  completedAt : Option Nat
  logs : String
deriving Repr, DecidableEq

/-- Job record from main.go: a job within a workflow run. -/
structure Job where
  id : String
  runID : String
  name : String
  status : String
  conclusion : String
  startedAt : Option Nat
  completedAt : Option Nat
  steps : List Step
  url : String
deriving Repr, DecidableEq

/-! ## The merge-and-sort step (workflows.go lines 43-45 and 149-151)

Both watchWorkflows and listWorkflows execute
  sort.Slice(allRuns, func(i, j int) \x7b return allRuns[i].CreatedAt.After(allRuns[j].CreatedAt) \x7d)
The comparator less(a, b) is CreatedAt.After, i.e. b.createdAt < a.createdAt.
The Go standard library documents sort.Slice as: the result is the input
reordered (a permutation) so that it is sorted with respect to less, and
the sort is NOT guaranteed to be stable (equal elements may be reversed).
We therefore model this step by that contract, as a relation between the
input slice and the possible output slices. -/

/-- Comparator passed to sort.Slice: run a is ordered before run b when
a.CreatedAt.After(b.CreatedAt) holds. -/
def runLess (a b : WorkflowRun) : Bool := decide (b.createdAt < a.createdAt)

/-- Contract of the sort.Slice call on the merged run list: the output is a
permutation of the input and is sorted with respect to runLess, meaning no
later element compares strictly before an earlier one. -/
def SortSliceSpec (input output : List WorkflowRun) : Prop :=
  List.Perm input output ∧
    output.Pairwise (fun a b => b.createdAt ≤ a.createdAt)

/-- Reference executable sort realising the sort.Slice contract (insertion
sort with the nonstrict descending-createdAt order). -/
def sortRuns (l : List WorkflowRun) : List WorkflowRun :=
  List.insertionSort (fun a b => b.createdAt ≤ a.createdAt) l

theorem sortRuns_spec (l : List WorkflowRun) : SortSliceSpec l (sortRuns l) := by
  constructor
  · exact (List.perm_insertionSort _ l).symm
  · have : IsTotal WorkflowRun (fun a b => b.createdAt ≤ a.createdAt) :=
      ⟨fun a b => Nat.le_total b.createdAt a.createdAt⟩
    have : IsTrans WorkflowRun (fun a b => b.createdAt ≤ a.createdAt) :=
      ⟨fun _ _ _ h1 h2 => Nat.le_trans h2 h1⟩
    exact List.sorted_insertionSort _ l

/-- Helper: under the sort.Slice contract, an input with pairwise distinct
createdAt values yields an output that is strictly descending. -/
theorem sortSliceSpec_strict_desc {input output : List WorkflowRun}
    (hspec : SortSliceSpec input output)
    (hdist : input.Pairwise (fun a b => a.createdAt ≠ b.createdAt)) :
    output.Pairwise (fun a b => b.createdAt < a.createdAt) := by
  obtain ⟨hperm, hsorted⟩ := hspec
  have hdist2 : output.Pairwise (fun a b => a.createdAt ≠ b.createdAt) :=
    (hperm.pairwise_iff (fun {a b} h e => h e.symm)).mp hdist
  have := hsorted.and hdist2
  exact this.imp (fun h => lt_of_le_of_ne h.1 (fun e => h.2 e.symm))

/-! ## strings.Split on the "/" separator (workflows.go line 292)

getJobsForRun executes parts := strings.Split(run.Project, "/") and rejects
the run when len(parts) != 2. The Go strings.Split with a single-character
nonempty separator is embedded on character lists. -/

/-- Character-level embedding of strings.Split(s, sep) for a one-character
separator: splits at every occurrence of the separator, keeping empty
fields, and yields one field even for the empty string. -/
def charSplit (sep : Char) : List Char → List (List Char)
  | [] => [[]]
  | c :: rest =>
    if c = sep then [] :: charSplit sep rest
    else
      match charSplit sep rest with
      | [] => [[c]]
      | p :: ps => (c :: p) :: ps

theorem charSplit_ne_nil (sep : Char) (l : List Char) : charSplit sep l ≠ [] := by
  cases l with
  | nil => simp [charSplit]
  | cons c rest =>
    simp only [charSplit]
    split
    · simp
    · split
      · simp
      · simp

/-- Number of fields produced by the split: one more than the number of
separator occurrences. -/
theorem charSplit_length (sep : Char) (l : List Char) :
    (charSplit sep l).length = l.count sep + 1 := by
  induction l with
  | nil => simp [charSplit]
  | cons c rest ih =>
    by_cases h : c = sep
    · subst h
      simp [charSplit, List.count_cons, ih]
    · rw [List.count_cons]
      simp only [charSplit, if_neg h]
      have hne := charSplit_ne_nil sep rest
      cases hsplit : charSplit sep rest with
      | nil => exact absurd hsplit hne
      | cons p ps =>
        have hcs : (c == sep) = false := by
          simp only [beq_eq_false_iff_ne]
          exact h
        rw [hcs]
        simp only [Bool.false_eq_true, if_false, Nat.add_zero]
        rw [← ih, hsplit]
        simp

/-- Embedding of the project-identity parse in getJobsForRun
(workflows.go lines 292-298): split the stored project string on "/" and
fail unless exactly two parts result; on success the first part is the
owner and the second the repo. Emptiness of the parts is not checked by
the source. -/
def parseProjectIdentity (s : String) : Except String (String × String) :=
  match charSplit '/' s.toList with
  | [a, b] => .ok (⟨a⟩, ⟨b⟩)
  | _ => .error ("invalid project format: " ++ s ++ " (expected owner/repo)")

/-! ## strconv.Atoi and the interactive selection step (workflows.go 51-70)

After trimming, the watch flow returns on input "q" or "", then parses the
input with strconv.Atoi; a parse error, a value below 1 or a value above
the list length prints Invalid selection and returns without entering the
detail view. strconv.Atoi accepts an optional sign followed by one or more
decimal digits (overflow aside, which cannot occur for list selections). -/

/-- Decimal value of a digit list, most significant first. -/
def digitsVal (l : List Char) : Nat :=
  l.foldl (fun acc c => acc * 10 + (c.toNat - 48)) 0

/-- Embedding of strconv.Atoi: optional leading + or - sign, then a
nonempty run of decimal digits; anything else is a parse error (None). -/
def atoi (s : String) : Option Int :=
  match s.toList with
  | [] => none
  | '-' :: rest =>
    if rest ≠ [] ∧ rest.all Char.isDigit then some (-(digitsVal rest : Int)) else none
  | '+' :: rest =>
    if rest ≠ [] ∧ rest.all Char.isDigit then some (digitsVal rest : Int) else none
  | l =>
    if l.all Char.isDigit then some (digitsVal l : Int) else none

/-- Outcome of the selection step of the watch flow: the flow either quits
cleanly, reports an invalid selection (remaining in the listed state), or
enters the detail view for the 0-based index of the chosen run. -/
inductive SelectionOutcome where
  | quit
  | invalid
  | detail (idx : Nat)
deriving Repr, DecidableEq

/-- Embedding of workflows.go lines 59-70, operating on the already trimmed
input line: "q" and "" quit; unparsable input, a value below 1 or a value
above n (the displayed list length) is an invalid selection; otherwise the
run at the 1-based index is selected for the detail view. -/
def handleRunSelection (input : String) (n : Nat) : SelectionOutcome :=
  if input = "q" ∨ input = "" then .quit
  else
    match atoi input with
    | none => .invalid
    | some k => if k < 1 ∨ (n : Int) < k then .invalid else .detail (k - 1).toNat

/-! ## Platform clients (github client file and gitlab client file)

Client construction reads a token from the process environment; every
remote API call is routed through an oracle record so that theorems can
quantify over arbitrary remote behaviour. Each operation additionally
returns the list of side effects it performed, in order. -/

/-- Observable side effect of an operation: a read of an environment
variable or a network call to a remote API endpoint. -/
inductive Effect where
  | envRead (key : String)
  | network (endpoint : String)
deriving Repr, DecidableEq

/-- Predicate picking out network effects. -/
def Effect.isNetwork : Effect → Bool
  | .network _ => true
  | _ => false

/-- GitHubClient record: holds the bearer token resolved at construction. -/
structure GitHubClient where
  token : String
deriving Repr, DecidableEq

/-- GitLabClient record: holds the bearer token resolved at construction. -/
structure GitLabClient where
  token : String
deriving Repr, DecidableEq

/-- Raw GitHub workflow run as returned by the remote API, restricted to
the fields the client reads. -/
structure GitHubRawRun where
  id : Nat
  name : String
  status : String
  conclusion : String
  createdAt : Nat
  updatedAt : Nat
  htmlURL : String
  headBranch : String
  headSHA : String
  triggeringActor : String
deriving Repr, DecidableEq

/-- Raw GitHub job step as returned by the remote API. -/
structure GitHubRawStep where
  name : String
  status : String
  conclusion : String
  startedAt : Option Nat
  completedAt : Option Nat
deriving Repr, DecidableEq

/-- Raw GitHub job as returned by the remote API. -/
structure GitHubRawJob where
  id : Nat
  runID : Nat
  name : String
  status : String
  conclusion : String
  startedAt : Option Nat
  completedAt : Option Nat
  htmlURL : String
  steps : List GitHubRawStep
deriving Repr, DecidableEq

/-- Raw GitLab pipeline as returned by the remote API, restricted to the
fields the client reads. -/
structure GitLabRawPipeline where
  id : Nat
  ref : String
  status : String
  createdAt : Nat
  updatedAt : Nat
  webURL : String
  sha : String
deriving Repr, DecidableEq

/-- Raw GitLab job as returned by the remote API. -/
structure GitLabRawJob where
  id : Nat
  name : String
  status : String
  startedAt : Option Nat
  finishedAt : Option Nat
  webURL : String
deriving Repr, DecidableEq

/-- Oracle for the remote platforms: one field per API endpoint the
clients call. Failures are the RemoteError messages. -/
structure Remote where
  githubListRuns : String → String → Nat → Except String (List GitHubRawRun)
  githubListJobs : String → String → Int → Except String (List GitHubRawJob)
  githubListWorkflows : String → String → Except String (List String)
  gitlabListPipelines : String → Nat → Except String (List GitLabRawPipeline)
  gitlabListJobs : String → Int → Except String (List GitLabRawJob)
  gitlabListBranches : String → Except String (List String)
  gitlabCreatePipeline : String → String → Except String Unit

/-- Embedding of NewGitHubClient: read GITHUB_TOKEN from the environment
(os.Getenv yields the empty string when the variable is unset) and fail
with the configuration error of the source when it is empty; no network
call is made. -/
def newGitHubClient (env : String → String) :
    Except String GitHubClient × List Effect :=
  let token := env "GITHUB_TOKEN"
  if token = "" then
    (.error ("GITHUB_TOKEN" ++ " environment variable not set"), [.envRead "GITHUB_TOKEN"])
  else
    (.ok ⟨token⟩, [.envRead "GITHUB_TOKEN"])

/-- Embedding of NewGitLabClient: read GITLAB_TOKEN from the environment
and fail with the configuration error of the source when it is empty; no
network call is made. -/
def newGitLabClient (env : String → String) :
    Except String GitLabClient × List Effect :=
  let token := env "GITLAB_TOKEN"
  if token = "" then
    (.error ("GITLAB_TOKEN" ++ " environment variable not set"), [.envRead "GITLAB_TOKEN"])
  else
    (.ok ⟨token⟩, [.envRead "GITLAB_TOKEN"])

/-- Conversion of a raw GitHub run to the unified WorkflowRun, following
GetWorkflowRuns: the project string is owner/repo and the platform tag is
github. -/
def gitHubRunToWorkflowRun (owner repo : String) (r : GitHubRawRun) : WorkflowRun :=
  { id := toString r.id
    project := owner ++ "/" ++ repo
    workflow := r.name
    status := r.status
    conclusion := r.conclusion
    createdAt := r.createdAt
    updatedAt := r.updatedAt
    url := r.htmlURL
    platform := "github"
    branch := r.headBranch
    commit := r.headSHA
    triggeredBy := r.triggeringActor }

/-- Embedding of GitHubClient.GetWorkflowRuns: one network call listing
repository workflow runs, each mapped to the unified model. -/
def gitHubGetWorkflowRuns (_c : GitHubClient) (remote : Remote)
    (owner repo : String) (limit : Nat) :
    Except String (List WorkflowRun) × List Effect :=
  match remote.githubListRuns owner repo limit with
  | .error e => (.error e, [.network "github.listWorkflowRuns"])
  | .ok runs =>
    (.ok (runs.map (gitHubRunToWorkflowRun owner repo)), [.network "github.listWorkflowRuns"])

/-- Conversion of a raw GitHub step to the unified Step. -/
def gitHubStepToStep (s : GitHubRawStep) : Step :=
  { name := s.name
    status := s.status
    conclusion := s.conclusion
    startedAt := s.startedAt
    completedAt := s.completedAt
    logs := "" }

/-- Conversion of a raw GitHub job to the unified Job, following
GetWorkflowJobs: steps come from the native step list of the platform. -/
def gitHubJobToJob (j : GitHubRawJob) : Job :=
  { id := toString j.id
    runID := toString j.runID
    name := j.name
    status := j.status
    conclusion := j.conclusion
    startedAt := j.startedAt
    completedAt := j.completedAt
    steps := j.steps.map gitHubStepToStep
    url := j.htmlURL }

/-- Embedding of GitHubClient.GetWorkflowJobs: parse the run identifier
with strconv.ParseInt (same accepted syntax as Atoi for decimal input),
then one network call listing the jobs of the run. -/
def gitHubGetWorkflowJobs (_c : GitHubClient) (remote : Remote)
    (owner repo runID : String) :
    Except String (List Job) × List Effect :=
  match atoi runID with
  | none => (.error ("invalid run id: " ++ runID), [])
  | some rid =>
    match remote.githubListJobs owner repo rid with
    | .error e => (.error e, [.network "github.listWorkflowJobs"])
    | .ok jobs => (.ok (jobs.map gitHubJobToJob), [.network "github.listWorkflowJobs"])

/-- Embedding of GitHubClient.GetWorkflows: one network call listing the
workflow definitions of the repository, keeping their names. -/
def gitHubGetWorkflows (_c : GitHubClient) (remote : Remote) (owner repo : String) :
    Except String (List String) × List Effect :=
  (remote.githubListWorkflows owner repo, [.network "github.listWorkflows"])

/-- Embedding of GitHubClient.TriggerWorkflow: the source returns an error
unconditionally, for every input, without any network call. -/
def gitHubTriggerWorkflow (_c : GitHubClient) (_owner _repo _workflowID _ref : String)
    (_inputs : List (String × String)) :
    Except String Unit × List Effect :=
  (.error "workflow triggering not yet implemented for GitHub", [])

/-- Conversion of a raw GitLab pipeline to the unified WorkflowRun,
following GetPipelineRuns: the status string doubles as the conclusion,
the ref doubles as workflow name and branch, and the actor is system. -/
def gitLabPipelineToWorkflowRun (projectID : String) (p : GitLabRawPipeline) : WorkflowRun :=
  { id := toString p.id
    project := projectID
    workflow := p.ref
    status := p.status
    conclusion := p.status
    createdAt := p.createdAt
    updatedAt := p.updatedAt
    url := p.webURL
    platform := "gitlab"
    branch := p.ref
    commit := p.sha
    triggeredBy := "system" }

/-- Embedding of GitLabClient.GetPipelineRuns: one network call listing
project pipelines, each mapped to the unified model. -/
def gitLabGetPipelineRuns (_c : GitLabClient) (remote : Remote)
    (projectID : String) (limit : Nat) :
    Except String (List WorkflowRun) × List Effect :=
  match remote.gitlabListPipelines projectID limit with
  | .error e => (.error e, [.network "gitlab.listProjectPipelines"])
  | .ok ps =>
    (.ok (ps.map (gitLabPipelineToWorkflowRun projectID)), [.network "gitlab.listProjectPipelines"])

/-- Conversion of a raw GitLab job to the unified Job, following
GetPipelineJobs: GitLab has no native step concept, so exactly one
synthetic Step is attached, mirroring the status, conclusion and
timestamps of the job itself. -/
def gitLabJobToJob (pipelineID : String) (j : GitLabRawJob) : Job :=
  { id := toString j.id
    runID := pipelineID
    name := j.name
    status := j.status
    conclusion := j.status
    startedAt := j.startedAt
    completedAt := j.finishedAt
    steps := [{ name := j.name
                status := j.status
                conclusion := j.status
                startedAt := j.startedAt
                completedAt := j.finishedAt
                logs := "" }]
    url := j.webURL }

/-- Embedding of GitLabClient.GetPipelineJobs: parse the pipeline id with
strconv.Atoi, then one network call listing the jobs of the pipeline. -/
def gitLabGetPipelineJobs (_c : GitLabClient) (remote : Remote)
    (projectID pipelineID : String) :
    Except String (List Job) × List Effect :=
  match atoi pipelineID with
  | none => (.error ("invalid pipeline id: " ++ pipelineID), [])
  | some pid =>
    match remote.gitlabListJobs projectID pid with
    | .error e => (.error e, [.network "gitlab.listPipelineJobs"])
    | .ok jobs => (.ok (jobs.map (gitLabJobToJob pipelineID)), [.network "gitlab.listPipelineJobs"])

/-- Embedding of GitLabClient.GetPipelines: GitLab substitutes branch
names for workflow definitions; one network call listing branches. -/
def gitLabGetPipelines (_c : GitLabClient) (remote : Remote) (projectID : String) :
    Except String (List String) × List Effect :=
  (remote.gitlabListBranches projectID, [.network "gitlab.listBranches"])

/-- Embedding of GitLabClient.TriggerPipeline: one network call creating a
pipeline for the given ref. -/
def gitLabTriggerPipeline (_c : GitLabClient) (remote : Remote)
    (projectID ref : String) (_variables : List (String × String)) :
    Except String Unit × List Effect :=
  (remote.gitlabCreatePipeline projectID ref, [.network "gitlab.createPipeline"])

/-! ## Platform dispatch (workflows.go lines 157-219 and 289-324)

Each dispatcher switches on the platform tag of the project: known tags
construct the matching client and call it; any other tag yields the
unsupported-platform error of the source directly, with no effect at
all (no environment read, no client construction, no network call). -/

/-- Sequencing helper threading the effect list through two fallible
steps: on failure of the first step its effects and error are returned,
otherwise the effects of both steps are concatenated. -/
def andThenE {α β : Type} (first : Except String α × List Effect)
    (next : α → Except String β × List Effect) :
    Except String β × List Effect :=
  match first with
  | (.error e, fx) => (.error e, fx)
  | (.ok a, fx) => ((next a).1, fx ++ (next a).2)

/-- Embedding of getWorkflowRunsForProject: dispatch on the platform tag,
constructing the client and listing runs for the known platforms (GitLab
receives the composite project name as identifier), and failing locally
with the unsupported-platform error otherwise. -/
def getWorkflowRunsForProject (env : String → String) (remote : Remote)
    (project : Project) (limit : Nat) :
    Except String (List WorkflowRun) × List Effect :=
  if project.platform = "github" then
    andThenE (newGitHubClient env)
      (fun c => gitHubGetWorkflowRuns c remote project.owner project.repo limit)
  else if project.platform = "gitlab" then
    andThenE (newGitLabClient env)
      (fun c => gitLabGetPipelineRuns c remote project.name limit)
  else
    (.error ("unsupported platform: " ++ project.platform), [])

/-- Embedding of getAvailableWorkflows: dispatch on the platform tag with
the same structure as run listing. -/
def getAvailableWorkflows (env : String → String) (remote : Remote)
    (project : Project) :
    Except String (List String) × List Effect :=
  if project.platform = "github" then
    andThenE (newGitHubClient env)
      (fun c => gitHubGetWorkflows c remote project.owner project.repo)
  else if project.platform = "gitlab" then
    andThenE (newGitLabClient env)
      (fun c => gitLabGetPipelines c remote project.name)
  else
    (.error ("unsupported platform: " ++ project.platform), [])

/-- Embedding of triggerWorkflow: dispatch on the platform tag; the GitHub
branch triggers on the fixed main ref with nil inputs, the GitLab branch
passes the workflow name as the pipeline ref. -/
def triggerWorkflow (env : String → String) (remote : Remote)
    (project : Project) (workflowName : String) :
    Except String Unit × List Effect :=
  if project.platform = "github" then
    andThenE (newGitHubClient env)
      (fun c => gitHubTriggerWorkflow c project.owner project.repo workflowName "main" [])
  else if project.platform = "gitlab" then
    andThenE (newGitLabClient env)
      (fun c => gitLabTriggerPipeline c remote project.name workflowName [])
  else
    (.error ("unsupported platform: " ++ project.platform), [])

/-- Embedding of getJobsForRun: reconstruct the originating project
identity by splitting the stored project string of the run, build the
temporary project, then dispatch on its platform tag. -/
def getJobsForRun (env : String → String) (remote : Remote)
    (run : WorkflowRun) :
    Except String (List Job) × List Effect :=
  match parseProjectIdentity run.project with
  | .error e => (.error e, [])
  | .ok (owner, repo) =>
    let project : Project :=
      { name := run.project, owner := owner, repo := repo, platform := run.platform
        remoteURL := "", addedAt := "", accessToken := "" }
    if project.platform = "github" then
      andThenE (newGitHubClient env)
        (fun c => gitHubGetWorkflowJobs c remote project.owner project.repo run.id)
    else if project.platform = "gitlab" then
      andThenE (newGitLabClient env)
        (fun c => gitLabGetPipelineJobs c remote project.name run.id)
    else
      (.error ("unsupported platform: " ++ project.platform), [])

/-! ## Aggregation across projects (workflows.go lines 27-35 and 133-141)

Both watchWorkflows and listWorkflows loop over the registered projects,
append the runs of each successful fetch to one merged slice, and on a
per-project failure print an error naming the project and continue with
the next project. The loop is embedded abstractly over the per-project
fetch function; its result is the merged run list together with the list
of reported failures, each carrying the identity of the failing project. -/

/-- Embedding of the fan-out loop: fold over the project list, collecting
the runs of successful fetches in order and recording a report for every
failing project, never aborting. -/
def collectRuns (fetch : Project → Except String (List WorkflowRun)) :
    List Project → List WorkflowRun × List (String × String)
  | [] => ([], [])
  | p :: rest =>
    match fetch p with
    | .error e =>
      let r := collectRuns fetch rest
      (r.1, (p.name, e) :: r.2)
    | .ok runs =>
      let r := collectRuns fetch rest
      (runs ++ r.1, r.2)

/-- Runs contributed by one project: the fetched list on success and
nothing on failure. -/
def okRuns (fetch : Project → Except String (List WorkflowRun)) (p : Project) :
    List WorkflowRun :=
  match fetch p with
  | .ok runs => runs
  | .error _ => []

/-- Failure report contributed by one project, if any. -/
def errReport (fetch : Project → Except String (List WorkflowRun)) (p : Project) :
    Option (String × String) :=
  match fetch p with
  | .ok _ => none
  | .error e => some (p.name, e)

theorem collectRuns_eq (fetch : Project → Except String (List WorkflowRun)) :
    ∀ l : List Project,
      collectRuns fetch l = ((l.map (okRuns fetch)).flatten, l.filterMap (errReport fetch))
  | [] => rfl
  | p :: rest => by
    simp only [collectRuns, List.map_cons, List.flatten, List.filterMap_cons]
    cases h : fetch p with
    | error e =>
      simp [collectRuns_eq fetch rest, okRuns, errReport, h]
    | ok runs =>
      simp [collectRuns_eq fetch rest, okRuns, errReport, h]

/-! ## Finishing step of the start flow (workflows.go lines 105-111)

After the trigger call, a failure is reported as a displayable message
naming the failure, and the flow returns normally in both cases. -/

/-- Outcome of the start flow after the trigger call. -/
inductive StartOutcome where
  | failureReported (message : String)
  | success (workflowName projectName : String)
deriving Repr, DecidableEq

/-- Embedding of the error handling after triggerWorkflow in
startWorkflow: an error becomes a reported failure message and the flow
returns; success reports the triggered workflow and project. -/
def startWorkflowFinish (project : Project) (workflowName : String)
    (result : Except String Unit) : StartOutcome :=
  match result with
  | .error e => .failureReported ("Failed to trigger workflow: " ++ e)
  | .ok _ => .success workflowName project.name

/-! ## Persistence of the project list (state.go)

saveProjects marshals a State record (the project list plus version tag
1.0) to a JSON document and fully rewrites the state file; loadProjects
reads the file, unmarshals it and installs the project list, starting from
the empty list when the file does not exist. The document is embedded at
the level of JSON values (the text layer of encoding/json is injective on
values, so the value-level round trip captures the file round trip); the
file is an optional stored value. Marshalling follows the field tags of
the source, including omitempty on the access token; unmarshalling yields
the zero value for an absent field and fails on a type mismatch, as
encoding/json does. -/

/-- JSON values, restricted to the shapes the state document uses. -/
inductive Json where
  | str (s : String)
  | arr (elems : List Json)
  | obj (fields : List (String × Json))

/-- Marshalling of a Project following its field tags; the access_token
field carries omitempty and is dropped when empty. -/
def encodeProject (p : Project) : Json :=
  .obj ([("name", .str p.name), ("owner", .str p.owner), ("repo", .str p.repo),
         ("platform", .str p.platform), ("remote_url", .str p.remoteURL),
         ("added_at", .str p.addedAt)] ++
        (if p.accessToken = "" then [] else [("access_token", .str p.accessToken)]))

/-- State record from state.go: the project list plus a version tag. -/
structure GoState where
  projects : List Project
  version : String
deriving Repr

/-- Marshalling of the State record following its field tags. -/
def encodeState (st : GoState) : Json :=
  .obj [("projects", .arr (st.projects.map encodeProject)),
        ("version", .str st.version)]

/-- Unmarshalling helper: a string field of an object, yielding the zero
value when the field is absent and failing on a type mismatch. -/
def getStrField (fields : List (String × Json)) (key : String) : Except String String :=
  match fields.lookup key with
  | none => .ok ""
  | some (.str s) => .ok s
  | some _ => .error ("cannot unmarshal field " ++ key)

/-- Unmarshalling of a Project from a JSON value. -/
def decodeProject (j : Json) : Except String Project :=
  match j with
  | .obj fields => do
    let name ← getStrField fields "name"
    let owner ← getStrField fields "owner"
    let repo ← getStrField fields "repo"
    let platform ← getStrField fields "platform"
    let remoteURL ← getStrField fields "remote_url"
    let addedAt ← getStrField fields "added_at"
    let accessToken ← getStrField fields "access_token"
    return ⟨name, owner, repo, platform, remoteURL, addedAt, accessToken⟩
  | _ => .error "cannot unmarshal State.projects element"

/-- Unmarshalling of a list of Projects from the elements of a JSON
array, failing on the first element that fails. -/
def decodeProjectList : List Json → Except String (List Project)
  | [] => .ok []
  | j :: rest => do
    let p ← decodeProject j
    let ps ← decodeProjectList rest
    return p :: ps

/-- Unmarshalling of the State record from a JSON value: an absent
projects field yields the zero value (the empty list). -/
def decodeState (j : Json) : Except String GoState :=
  match j with
  | .obj fields => do
    let projects ←
      match fields.lookup "projects" with
      | none => pure []
      | some (.arr elems) => decodeProjectList elems
      | some _ => .error "cannot unmarshal State.projects"
    let version ← getStrField fields "version"
    return ⟨projects, version⟩
  | _ => .error "cannot unmarshal State"

/-- Embedding of saveProjects: build the State record with version tag 1.0
from the project list of the configuration and fully rewrite the stored
document with its marshalling. -/
def saveProjects (projects : List Project) : Json :=
  encodeState ⟨projects, "1.0"⟩

/-- Embedding of loadProjects: a missing state file installs the empty
project list; otherwise the stored document is unmarshalled and its
project list installed. -/
def loadProjects (stored : Option Json) : Except String (List Project) :=
  match stored with
  | none => .ok []
  | some j => (decodeState j).map GoState.projects

theorem decodeProject_encodeProject (p : Project) :
    decodeProject (encodeProject p) = .ok p := by
  cases p with
  | mk name owner repo platform remoteURL addedAt accessToken =>
    by_cases h : accessToken = ""
    · subst h
      rfl
    · simp only [encodeProject, if_neg h]
      rfl

theorem decodeProjectList_map_encode (ps : List Project) :
    decodeProjectList (ps.map encodeProject) = Except.ok ps := by
  induction ps with
  | nil => rfl
  | cons p rest ih =>
    simp only [List.map_cons, decodeProjectList, decodeProject_encodeProject, ih]
    rfl

/-- Boolean error test on Except results. -/
def isErr {ε α : Type} : Except ε α → Bool
  | .error _ => true
  | .ok _ => false

theorem parseProjectIdentity_def (s : String) :
    parseProjectIdentity s =
      (match charSplit '/' s.toList with
       | [a, b] => Except.ok (⟨a⟩, ⟨b⟩)
       | _ => .error ("invalid project format: " ++ s ++ " (expected owner/repo)")) := rfl

theorem parseProjectIdentity_two (s : String) (a b : List Char)
    (h : charSplit '/' s.toList = [a, b]) :
    parseProjectIdentity s = .ok (⟨a⟩, ⟨b⟩) := by
  rw [parseProjectIdentity_def, h]

theorem parseProjectIdentity_err (s : String)
    (hne : (charSplit '/' s.toList).length ≠ 2) :
    parseProjectIdentity s =
      .error ("invalid project format: " ++ s ++ " (expected owner/repo)") := by
  rw [parseProjectIdentity_def]
  cases hcs : charSplit '/' s.toList with
  | nil => rfl
  | cons x tl =>
    cases tl with
    | nil => rfl
    | cons y tl2 =>
      cases tl2 with
      | nil => rw [hcs] at hne; simp at hne
      | cons z tl3 => rfl

/-! ## Concrete fixtures used by the witnesses -/

/-- Fixture: a GitHub run with the older timestamp. -/
def runA : WorkflowRun :=
  ⟨"1", "o/r", "ci", "completed", "success", 1, 1, "u1", "github", "main", "c1", "alice"⟩

/-- Fixture: a GitLab run with the newer timestamp. -/
def runB : WorkflowRun :=
  ⟨"2", "g/p", "deploy", "success", "success", 2, 2, "u2", "gitlab", "main", "c2", "system"⟩

/-- Fixture: first of two distinct runs sharing one timestamp. -/
def tieA : WorkflowRun :=
  ⟨"t1", "o/r", "ci", "completed", "success", 5, 5, "u1", "github", "main", "c1", "alice"⟩

/-- Fixture: second of two distinct runs sharing one timestamp. -/
def tieB : WorkflowRun :=
  ⟨"t2", "g/p", "deploy", "success", "success", 5, 5, "u2", "gitlab", "main", "c2", "system"⟩

/-- Fixture: one raw GitLab job as the remote could return it. -/
def testRawJob : GitLabRawJob :=
  ⟨7, "compile", "success", some 3, some 9, "jobURL"⟩

/-- Fixture: a remote oracle with fixed responses. -/
def testRemote : Remote :=
  { githubListRuns := fun _ _ _ => .ok []
    githubListJobs := fun _ _ _ => .ok []
    githubListWorkflows := fun _ _ => .ok []
    gitlabListPipelines := fun _ _ => .ok []
    gitlabListJobs := fun _ _ => .ok [testRawJob]
    gitlabListBranches := fun _ => .ok []
    gitlabCreatePipeline := fun _ _ => .ok () }

/-- Fixture: an environment with every variable set. -/
def envAll : String → String := fun _ => "tok"

/-- Fixture: an environment with no variable set (os.Getenv yields the
empty string). -/
def envNone : String → String := fun _ => ""

/-- Fixture: a project registered with an unrecognized platform tag. -/
def badProject : Project := ⟨"o/r", "o", "r", "bitbucket", "ru", "aa", ""⟩

/-- Fixture: a run carrying an unrecognized platform tag and a well formed
project string. -/
def badRun : WorkflowRun :=
  ⟨"9", "o/r", "ci", "s", "s", 3, 3, "u", "bitbucket", "b", "c", "x"⟩

/-- Fixture: a github-platform project. -/
def ghProject : Project := ⟨"o/r", "o", "r", "github", "ru", "aa", ""⟩

/-- Fixture: a gitlab-platform project. -/
def glProject : Project := ⟨"g/p", "g", "p", "gitlab", "ru", "aa", ""⟩

/-- Fixture: a project whose fetch fails under fetchW. -/
def failProject : Project := ⟨"bad/x", "bad", "x", "github", "ru", "aa", ""⟩

/-- Fixture: a per-project fetch that fails exactly on failProject. -/
def fetchW : Project → Except String (List WorkflowRun) :=
  fun q => if q.name = "bad/x" then .error "boom" else .ok [runA]

/-! ## Claims -/

/-- C1: for every non-empty collection of runs gathered across projects in
which all createdAt timestamps are distinct, any list satisfying the
contract of the merge-and-sort step shared by the watch and list flows is
sorted strictly descending by createdAt (newest first). -/
theorem c1_merge_sort_descending (input output : List WorkflowRun)
    (_hne : input ≠ [])
    (hspec : SortSliceSpec input output)
    (hdist : input.Pairwise (fun a b => a.createdAt ≠ b.createdAt)) :
    output.Pairwise (fun a b => b.createdAt < a.createdAt) :=
  sortSliceSpec_strict_desc hspec hdist

theorem c1_merge_sort_descending_witness :
    (sortRuns [runA, runB]).Pairwise (fun a b => b.createdAt < a.createdAt) :=
  c1_merge_sort_descending [runA, runB] (sortRuns [runA, runB])
    (by decide) (sortRuns_spec [runA, runB]) (by decide)

/-- C2 counterexample: the merge-and-sort step is implemented with
sort.Slice, whose contract does not promise stability, so an output of the
sort step may reorder two runs that share a createdAt value: the claim
that ties always keep their relative input order is false. -/
theorem c2_stable_sort_counterexample :
    ¬ (∀ input output : List WorkflowRun, SortSliceSpec input output →
        ∀ x y : WorkflowRun, x.createdAt = y.createdAt →
          [x, y].isSublist input = true → [x, y].isSublist output = true) := by
  intro h
  have hspec : SortSliceSpec [tieA, tieB] [tieB, tieA] :=
    ⟨List.Perm.swap tieB tieA [], by decide⟩
  have h2 := h [tieA, tieB] [tieB, tieA] hspec tieA tieB (by decide) (by decide)
  exact absurd h2 (by decide)

/-- C2 amended: the sort step guarantees only that its output is a
permutation of the input that is sorted descending by createdAt; runs with
equal createdAt may be reordered. When all createdAt values of the input
are distinct, the output is uniquely determined by the input, so repeated
invocations on the same input produce the same list. -/
theorem c2_distinct_times_deterministic (input o1 o2 : List WorkflowRun)
    (h1 : SortSliceSpec input o1) (h2 : SortSliceSpec input o2)
    (hdist : input.Pairwise (fun a b => a.createdAt ≠ b.createdAt)) :
    o1 = o2 := by
  have s1 := sortSliceSpec_strict_desc h1 hdist
  have s2 := sortSliceSpec_strict_desc h2 hdist
  have hperm : List.Perm o1 o2 := h1.1.symm.trans h2.1
  haveI : IsAntisymm WorkflowRun (fun a b => b.createdAt < a.createdAt) :=
    ⟨fun a b hab hba => absurd (Nat.lt_trans hab hba) (Nat.lt_irrefl _)⟩
  exact List.eq_of_perm_of_sorted hperm s1 s2

theorem c2_distinct_times_deterministic_witness :
    sortRuns [runA, runB] = [runB, runA] :=
  c2_distinct_times_deterministic [runA, runB] (sortRuns [runA, runB]) [runB, runA]
    (sortRuns_spec [runA, runB])
    ⟨List.Perm.swap runB runA [], by decide⟩
    (by decide)

/-- C3: every Job produced by the GitLab job-listing operation carries
exactly one synthetic Step, and that Step mirrors the name, status,
conclusion and timestamps of the Job itself. -/
theorem c3_gitlab_single_synthetic_step (c : GitLabClient) (remote : Remote)
    (projectID pipelineID : String) (jobs : List Job)
    (h : (gitLabGetPipelineJobs c remote projectID pipelineID).1 = .ok jobs) :
    ∀ j ∈ jobs, j.steps.length = 1 ∧
      ∀ s ∈ j.steps, s.name = j.name ∧ s.status = j.status ∧
        s.conclusion = j.conclusion ∧ s.startedAt = j.startedAt ∧
        s.completedAt = j.completedAt := by
  unfold gitLabGetPipelineJobs at h
  cases hat : atoi pipelineID with
  | none => simp only [hat] at h; cases h
  | some pid =>
    simp only [hat] at h
    cases hr : remote.gitlabListJobs projectID pid with
    | error e => simp only [hr] at h; cases h
    | ok raws =>
      simp only [hr, Except.ok.injEq] at h
      subst h
      intro j hj
      rw [List.mem_map] at hj
      obtain ⟨raw, _, hraw⟩ := hj
      subst hraw
      simp [gitLabJobToJob]

theorem c3_gitlab_single_synthetic_step_witness :
    (gitLabJobToJob "5" testRawJob).steps.length = 1 ∧
    ∀ s ∈ (gitLabJobToJob "5" testRawJob).steps,
      s.name = (gitLabJobToJob "5" testRawJob).name ∧
      s.status = (gitLabJobToJob "5" testRawJob).status ∧
      s.conclusion = (gitLabJobToJob "5" testRawJob).conclusion ∧
      s.startedAt = (gitLabJobToJob "5" testRawJob).startedAt ∧
      s.completedAt = (gitLabJobToJob "5" testRawJob).completedAt :=
  c3_gitlab_single_synthetic_step ⟨"tok"⟩ testRemote "g/p" "5"
    [gitLabJobToJob "5" testRawJob] rfl
    (gitLabJobToJob "5" testRawJob) (List.mem_singleton.mpr rfl)

/-- C4: for every Project (or drill-down run) whose platform tag is
neither github nor gitlab, each of the four dispatch operations fails with
the unsupported-platform error, and the effect list is empty: no
environment read, no client construction and no network call happens; the
job dispatch is considered for runs whose stored project string passes the
preceding two-part check. -/
theorem c4_unsupported_platform_local (env : String → String) (remote : Remote)
    (p : Project) (limit : Nat) (wf : String) (run : WorkflowRun)
    (hg : p.platform ≠ "github") (hl : p.platform ≠ "gitlab")
    (hrg : run.platform ≠ "github") (hrl : run.platform ≠ "gitlab")
    (hsplit : (charSplit '/' run.project.toList).length = 2) :
    getWorkflowRunsForProject env remote p limit =
      (.error ("unsupported platform: " ++ p.platform), []) ∧
    getAvailableWorkflows env remote p =
      (.error ("unsupported platform: " ++ p.platform), []) ∧
    triggerWorkflow env remote p wf =
      (.error ("unsupported platform: " ++ p.platform), []) ∧
    getJobsForRun env remote run =
      (.error ("unsupported platform: " ++ run.platform), []) := by
  refine ⟨?_, ?_, ?_, ?_⟩
  · simp [getWorkflowRunsForProject, hg, hl]
  · simp [getAvailableWorkflows, hg, hl]
  · simp [triggerWorkflow, hg, hl]
  · obtain ⟨a, b, hab⟩ := List.length_eq_two.mp hsplit
    simp [getJobsForRun, parseProjectIdentity_two run.project a b hab, hrg, hrl]

theorem c4_unsupported_platform_local_witness :
    getWorkflowRunsForProject envAll testRemote badProject 10 =
      (.error ("unsupported platform: " ++ badProject.platform), []) ∧
    getAvailableWorkflows envAll testRemote badProject =
      (.error ("unsupported platform: " ++ badProject.platform), []) ∧
    triggerWorkflow envAll testRemote badProject "build" =
      (.error ("unsupported platform: " ++ badProject.platform), []) ∧
    getJobsForRun envAll testRemote badRun =
      (.error ("unsupported platform: " ++ badRun.platform), []) :=
  c4_unsupported_platform_local envAll testRemote badProject 10 "build" badRun
    (by decide) (by decide) (by decide) (by decide) (by decide)

/-- C5: when the per-project fetch fails for exactly one project of the
registry, the aggregation loop of the watch and list flows yields the
concatenation of the runs of all remaining projects, in registry order,
together with a single failure report carrying the identity of the failing
project; the loop is a total function, so the aggregation never aborts. -/
theorem c5_partial_aggregation
    (fetch : Project → Except String (List WorkflowRun))
    (pre post : List Project) (p : Project) (e : String)
    (hfail : fetch p = .error e)
    (hpre : ∀ q ∈ pre, ∃ rs, fetch q = .ok rs)
    (hpost : ∀ q ∈ post, ∃ rs, fetch q = .ok rs) :
    collectRuns fetch (pre ++ p :: post) =
      ((pre.map (okRuns fetch)).flatten ++ (post.map (okRuns fetch)).flatten,
       [(p.name, e)]) := by
  have h1 : pre.filterMap (errReport fetch) = [] := by
    rw [List.filterMap_eq_nil_iff]
    intro q hq
    obtain ⟨rs, hrs⟩ := hpre q hq
    simp [errReport, hrs]
  have h2 : post.filterMap (errReport fetch) = [] := by
    rw [List.filterMap_eq_nil_iff]
    intro q hq
    obtain ⟨rs, hrs⟩ := hpost q hq
    simp [errReport, hrs]
  have hmid : okRuns fetch p = [] := by simp [okRuns, hfail]
  have hrep : errReport fetch p = some (p.name, e) := by simp [errReport, hfail]
  rw [collectRuns_eq]
  simp [h1, h2, hmid, hrep]

theorem c5_partial_aggregation_witness :
    collectRuns fetchW ([ghProject] ++ failProject :: [glProject]) =
      (([ghProject].map (okRuns fetchW)).flatten ++
         ([glProject].map (okRuns fetchW)).flatten,
       [(failProject.name, "boom")]) :=
  c5_partial_aggregation fetchW [ghProject] [glProject] failProject "boom" rfl
    (by intro q hq; rw [List.mem_singleton] at hq; subst hq; exact ⟨[runA], rfl⟩)
    (by intro q hq; rw [List.mem_singleton] at hq; subst hq; exact ⟨[runA], rfl⟩)

/-- C6: each client constructor fails immediately with the configuration
error naming the expected environment variable when that credential is
absent from the environment, performs no network call in any case, and
does not fail when the credential is present. -/
theorem c6_missing_token_configuration_error (env : String → String) :
    (env "GITHUB_TOKEN" = "" →
      newGitHubClient env =
        (.error ("GITHUB_TOKEN" ++ " environment variable not set"),
         [.envRead "GITHUB_TOKEN"])) ∧
    (env "GITHUB_TOKEN" ≠ "" →
      ∃ c, newGitHubClient env = (.ok c, [.envRead "GITHUB_TOKEN"])) ∧
    (env "GITLAB_TOKEN" = "" →
      newGitLabClient env =
        (.error ("GITLAB_TOKEN" ++ " environment variable not set"),
         [.envRead "GITLAB_TOKEN"])) ∧
    (env "GITLAB_TOKEN" ≠ "" →
      ∃ c, newGitLabClient env = (.ok c, [.envRead "GITLAB_TOKEN"])) ∧
    (∀ e ∈ (newGitHubClient env).2, e.isNetwork = false) ∧
    (∀ e ∈ (newGitLabClient env).2, e.isNetwork = false) := by
  refine ⟨fun h => ?_, fun h => ?_, fun h => ?_, fun h => ?_, ?_, ?_⟩
  · simp [newGitHubClient, h]
  · exact ⟨⟨env "GITHUB_TOKEN"⟩, by simp [newGitHubClient, h]⟩
  · simp [newGitLabClient, h]
  · exact ⟨⟨env "GITLAB_TOKEN"⟩, by simp [newGitLabClient, h]⟩
  · intro e he
    by_cases h : env "GITHUB_TOKEN" = "" <;>
      simp [newGitHubClient, h] at he <;>
      simp [he, Effect.isNetwork]
  · intro e he
    by_cases h : env "GITLAB_TOKEN" = "" <;>
      simp [newGitLabClient, h] at he <;>
      simp [he, Effect.isNetwork]

theorem c6_missing_token_configuration_error_witness :
    newGitHubClient envNone =
      (.error ("GITHUB_TOKEN" ++ " environment variable not set"),
       [.envRead "GITHUB_TOKEN"]) ∧
    (∃ c, newGitHubClient envAll = (.ok c, [.envRead "GITHUB_TOKEN"])) ∧
    newGitLabClient envNone =
      (.error ("GITLAB_TOKEN" ++ " environment variable not set"),
       [.envRead "GITLAB_TOKEN"]) ∧
    (∃ c, newGitLabClient envAll = (.ok c, [.envRead "GITLAB_TOKEN"])) :=
  ⟨(c6_missing_token_configuration_error envNone).1 rfl,
   (c6_missing_token_configuration_error envAll).2.1 (by decide),
   (c6_missing_token_configuration_error envNone).2.2.1 rfl,
   (c6_missing_token_configuration_error envAll).2.2.2.1 (by decide)⟩

/-- C7 counterexample: the claim states that reconstructing the project
identity fails exactly when the stored string does not split into two
non-empty parts, so that owner/ (empty repo part) is rejected; but the
source checks only that the split yields exactly two parts, and owner/ is
accepted with an empty repo part, refuting the claimed equivalence. -/
theorem c7_nonempty_parts_counterexample :
    ¬ (∀ s : String,
        isErr (parseProjectIdentity s) = true ↔
          ¬ ((charSplit '/' s.toList).length = 2 ∧
             ∀ part ∈ charSplit '/' s.toList, part ≠ [])) := by
  intro h
  have h2 := (h "owner/").mpr (by decide)
  exact absurd h2 (by decide)

/-- C7 amended: the parse fails with the malformed-project error exactly
when the stored string does not contain exactly one separator (so the
split does not yield exactly two parts); emptiness of the parts is not
checked, and in particular owner/ and /repo are accepted, with an empty
repo or owner part respectively. -/
theorem c7_malformed_iff_not_two_parts :
    (∀ s : String,
      isErr (parseProjectIdentity s) = true ↔ s.toList.count '/' ≠ 1) ∧
    parseProjectIdentity "owner/" = .ok ("owner", "") ∧
    parseProjectIdentity "/repo" = .ok ("", "repo") := by
  refine ⟨fun s => ?_, rfl, rfl⟩
  have hlen := charSplit_length '/' s.toList
  by_cases h2 : (charSplit '/' s.toList).length = 2
  · obtain ⟨a, b, hab⟩ := List.length_eq_two.mp h2
    rw [parseProjectIdentity_two s a b hab]
    rw [h2] at hlen
    have hcount : s.toList.count '/' = 1 := by omega
    simp [isErr, hcount]
    exact hcount
  · rw [parseProjectIdentity_err s h2]
    have hcount : s.toList.count '/' ≠ 1 := by omega
    simp [isErr, hcount]
    exact hcount

/-- C8: in the selection step of the watch flow, the inputs 0 and -1, any
parsed number exceeding the displayed list length, and any non-numeric
input are all invalid selections: the outcome is invalid, never the detail
state, and the total handler returns without a crash; the quit sentinel q
and the empty input cancel the flow cleanly. -/
theorem c8_invalid_selection (n : Nat) :
    handleRunSelection "0" n = .invalid ∧
    handleRunSelection "-1" n = .invalid ∧
    (∀ s k, atoi s = some k → (n : Int) < k → handleRunSelection s n = .invalid) ∧
    (∀ s, s ≠ "q" → s ≠ "" → atoi s = none → handleRunSelection s n = .invalid) ∧
    handleRunSelection "q" n = .quit ∧
    handleRunSelection "" n = .quit := by
  refine ⟨rfl, rfl, ?_, ?_, rfl, rfl⟩
  · intro s k hk hnk
    by_cases hq : s = "q" ∨ s = ""
    · exfalso
      cases hq with
      | inl h => subst h; rw [show atoi "q" = none from by decide] at hk; cases hk
      | inr h => subst h; rw [show atoi "" = none from by decide] at hk; cases hk
    · simp only [handleRunSelection, if_neg hq]
      rw [hk]
      simp only []
      rw [if_pos (Or.inr hnk)]
  · intro s hq he hnone
    have : ¬ (s = "q" ∨ s = "") := by
      intro hor
      cases hor with
      | inl h => exact hq h
      | inr h => exact he h
    simp only [handleRunSelection, if_neg this]
    rw [hnone]

theorem c8_invalid_selection_witness :
    handleRunSelection "17" 2 = .invalid ∧
    handleRunSelection "xy" 2 = .invalid :=
  ⟨(c8_invalid_selection 2).2.2.1 "17" 17 (by decide) (by decide),
   (c8_invalid_selection 2).2.2.2.1 "xy" (by decide) (by decide) (by decide)⟩

/-- C9: saving the project list and loading it back is a lossless round
trip: for every list of Projects, a save followed by a load yields the
same sequence with the same field values, and a further save of the loaded
list rewrites exactly the same document, so repeated save/load cycles with
no intervening mutation leave the persisted Project set unchanged. -/
theorem c9_save_load_roundtrip (projects : List Project) :
    loadProjects (some (saveProjects projects)) = .ok projects ∧
    ∀ qs, loadProjects (some (saveProjects projects)) = .ok qs →
      saveProjects qs = saveProjects projects := by
  have hmain : loadProjects (some (saveProjects projects)) = .ok projects := by
    simp only [loadProjects, saveProjects, encodeState, decodeState]
    simp [List.lookup, decodeProjectList_map_encode, getStrField]
    rfl
  refine ⟨hmain, fun qs hqs => ?_⟩
  rw [hmain] at hqs
  cases hqs
  rfl

/-- C10: the GitHub trigger operation fails with the not-implemented
error for every input, without any network call; consequently the start
flow can never successfully trigger a workflow on a github-platform
project, and the failure surfaces as a displayable reported message, not
a crash. -/
theorem c10_github_trigger_not_implemented (c : GitHubClient)
    (owner repo workflowID ref : String) (inputs : List (String × String))
    (env : String → String) (remote : Remote) (p : Project) (wf : String)
    (htok : env "GITHUB_TOKEN" ≠ "") (hp : p.platform = "github") :
    gitHubTriggerWorkflow c owner repo workflowID ref inputs =
      (.error "workflow triggering not yet implemented for GitHub", []) ∧
    (triggerWorkflow env remote p wf).1 =
      .error "workflow triggering not yet implemented for GitHub" ∧
    startWorkflowFinish p wf (triggerWorkflow env remote p wf).1 =
      .failureReported ("Failed to trigger workflow: " ++
        "workflow triggering not yet implemented for GitHub") := by
  have h2 : (triggerWorkflow env remote p wf).1 =
      .error "workflow triggering not yet implemented for GitHub" := by
    simp [triggerWorkflow, hp, newGitHubClient, htok, andThenE, gitHubTriggerWorkflow]
  refine ⟨rfl, h2, ?_⟩
  rw [h2]
  rfl

theorem c10_github_trigger_not_implemented_witness :
    (triggerWorkflow envAll testRemote ghProject "build").1 =
      .error "workflow triggering not yet implemented for GitHub" ∧
    startWorkflowFinish ghProject "build"
        (triggerWorkflow envAll testRemote ghProject "build").1 =
      .failureReported ("Failed to trigger workflow: " ++
        "workflow triggering not yet implemented for GitHub") :=
  ⟨(c10_github_trigger_not_implemented ⟨"tok"⟩ "o" "r" "w" "main" []
      envAll testRemote ghProject "build" (by decide) rfl).2.1,
   (c10_github_trigger_not_implemented ⟨"tok"⟩ "o" "r" "w" "main" []
      envAll testRemote ghProject "build" (by decide) rfl).2.2⟩

end QuickWorkflow
